import Mathlib

/-!
Verification development for the chroma-key compositing core of the
Green-Screen-Remover repository (`src/green_screen_remover.py`, function
`advanced_chroma_key`, lines 32-55).

Modelling conventions:
* An image is a pair of dimensions together with a total pixel function;
  values at out-of-bounds coordinates are irrelevant junk.
* A BGR (or HSV) 8-bit pixel is a function `Fin 3 → ℕ`; channel 0 is blue,
  channel 1 is green, channel 2 is red, exactly as the source indexes
  `frame[..., 0]`, `frame[..., 1]`, `frame[..., 2]`.
* `float32` arithmetic is modelled exactly over `ℚ`.  No property verified
  below depends on sub-ulp rounding of the actual float pipeline.
* Library primitives used by the source (`cv2.cvtColor`, `cv2.inRange`,
  `cv2.GaussianBlur`, `cv2.erode`, `cv2.dilate`, NumPy broadcasting and the
  `astype(np.uint8)` cast) are modelled from their documented semantics;
  each definition says which call it models.
-/

/-- An image: height, width, and a total pixel function (row, column). -/
structure Img (α : Type) where
  h : ℕ
  w : ℕ
  px : ℕ → ℕ → α

/-- An 8-bit three-channel pixel (BGR order, or HSV after conversion). -/
abbrev Px8 : Type := Fin 3 → ℕ

/-- A three-channel pixel in the float (here: rational) domain. -/
abbrev PxF : Type := Fin 3 → ℚ

/-- An 8-bit three-channel image, as produced by the capture source. -/
abbrev Img8 : Type := Img Px8

/-- A single-channel float mask image (`mask` in the source). -/
abbrev Mask : Type := Img ℚ

/-- A three-channel float image (`frame_no_spill`, `result` in the source). -/
abbrev ImgF : Type := Img PxF

/-- Round-half-up of a rational to a natural number, used for the integer
HSV components produced by `cv2.cvtColor`. -/
def rnd (x : ℚ) : ℕ := (⌊x + 1/2⌋).toNat

/-- Minimum of two rationals, written with an explicit conditional. -/
def qmin (a b : ℚ) : ℚ := if a ≤ b then a else b

/-- Maximum of two rationals, written with an explicit conditional. -/
def qmax (a b : ℚ) : ℚ := if a ≤ b then b else a

/-- One pixel of `cv2.cvtColor(frame, cv2.COLOR_BGR2HSV)` (source line 37),
following OpenCV's documented 8-bit formula: `V = max(B,G,R)`,
`S = 255*(V-min)/V` (0 when `V = 0`), hue in degrees divided by 2 so that
`H ∈ [0,180)`; when `V = min` (zero chroma) OpenCV's division table yields
hue 0.  OpenCV's fixed-point tables may round differently by one unit in
the last place; no theorem below depends on the exact converted values. -/
def cvtPx (p : Px8) : Px8 :=
  let b : ℚ := p 0
  let g : ℚ := p 1
  let r : ℚ := p 2
  let v : ℚ := qmax b (qmax g r)
  let mn : ℚ := qmin b (qmin g r)
  let s : ℚ := if v = 0 then 0 else 255 * (v - mn) / v
  let hRaw : ℚ :=
    if v = mn then 0
    else if v = r then 60 * (g - b) / (v - mn)
    else if v = g then 120 + 60 * (b - r) / (v - mn)
    else 240 + 60 * (r - g) / (v - mn)
  let hPos : ℚ := if hRaw < 0 then hRaw + 360 else hRaw
  fun c => if c.val = 0 then rnd (hPos / 2) else if c.val = 1 then rnd s else rnd v

/-- Model of `cv2.cvtColor(frame, cv2.COLOR_BGR2HSV)` (source line 37). -/
def cvtColorBGR2HSV (img : Img8) : Img8 :=
  ⟨img.h, img.w, fun i j => cvtPx (img.px i j)⟩

/-- The membership test of `cv2.inRange`: every one of the three channels
lies inclusively between the corresponding bounds. -/
def inRangeCond (lo hi v : Px8) : Prop :=
  (lo 0 ≤ v 0 ∧ v 0 ≤ hi 0) ∧ (lo 1 ≤ v 1 ∧ v 1 ≤ hi 1) ∧ (lo 2 ≤ v 2 ∧ v 2 ≤ hi 2)

instance (lo hi v : Px8) : Decidable (inRangeCond lo hi v) := by
  unfold inRangeCond; infer_instance

/-- Model of `cv2.inRange(hsv, green_lower, green_upper)` (source line 39):
the pixel value is 255 when every channel lies inclusively between the
bounds, 0 otherwise. -/
def inRange (img : Img8) (lo hi : Px8) : Img ℕ :=
  ⟨img.h, img.w, fun i j => if inRangeCond lo hi (img.px i j) then 255 else 0⟩

/-- Source line 39: `cv2.inRange(hsv, green_lower, green_upper).astype(np.float32) / 255.0`. -/
def binaryMask (frame : Img8) (lo hi : Px8) : Mask :=
  let m := inRange (cvtColorBGR2HSV frame) lo hi
  ⟨m.h, m.w, fun i j => (m.px i j : ℚ) / 255⟩

/-- OpenCV `borderInterpolate` for `BORDER_REFLECT_101` (the default border
of `cv2.GaussianBlur`): reflection without repeating the edge pixel,
degenerate lengths map everything to index 0.  The iterated reflection is
periodic with period `2*(len-1)`, which gives this closed form. -/
def borderReflect101 (len : ℕ) (p : ℤ) : ℕ :=
  if len ≤ 1 then 0
  else
    let m : ℤ := 2 * ((len : ℤ) - 1)
    let q : ℤ := p % m
    if q < (len : ℤ) then q.toNat else (m - q).toNat

/-- The 1-D Gaussian kernel OpenCV uses for `sigma = 0` (source line 40
passes sigma 0).  For kernel sizes 1, 3, 5, 7 OpenCV uses this exact
hard-coded table of dyadic rationals.  For larger sizes OpenCV derives the
weights from `exp`; those weights are irrational and have no exact
rational representation, so they are modelled by a normalized box kernel
here.  Every theorem below is independent of the kernel values — the mask
is clipped into `[0,1]` immediately after the blur and all later stages
are kernel-independent — and all concrete evaluations in this file use
sizes from the exact table. -/
def gaussKernel (ksize : ℕ) : List ℚ :=
  if ksize = 1 then [1]
  else if ksize = 3 then [1/4, 1/2, 1/4]
  else if ksize = 5 then [1/16, 1/4, 3/8, 1/4, 1/16]
  else if ksize = 7 then [1/32, 7/64, 7/32, 9/32, 7/32, 7/64, 1/32]
  else List.replicate ksize ((1 : ℚ) / ksize)

/-- Separable symmetric 2-D convolution of a single-channel image with a
1-D kernel (horizontal pass then vertical pass), borders handled by
`BORDER_REFLECT_101`, anchor at the kernel center — the structure of
OpenCV's Gaussian filter. -/
def blurWith (k : List ℚ) (m : Mask) : Mask :=
  let anchor := k.length / 2
  let hpass : Mask := ⟨m.h, m.w, fun i j =>
    ((List.range k.length).map (fun t =>
      k.getD t 0 * m.px i (borderReflect101 m.w ((j : ℤ) + (t : ℤ) - (anchor : ℤ))))).sum⟩
  ⟨m.h, m.w, fun i j =>
    ((List.range k.length).map (fun t =>
      k.getD t 0 * hpass.px (borderReflect101 m.h ((i : ℤ) + (t : ℤ) - (anchor : ℤ))) j)).sum⟩

/-- Model of `cv2.GaussianBlur(mask, (r, r), 0)` (source line 40). -/
def gaussianBlur (ksize : ℕ) (m : Mask) : Mask := blurWith (gaussKernel ksize) m

/-- Model of `np.clip(mask, 0, 1)` (source line 41). -/
def clip01 (m : Mask) : Mask := ⟨m.h, m.w, fun i j => qmin 1 (qmax 0 (m.px i j))⟩

/-- The in-bounds values of the full 3×3 neighborhood of `(i, j)` — the
structuring element `np.ones((3, 3))` of source line 43.  OpenCV's default
morphology border value is the neutral element of the min/max, so
out-of-bounds positions simply do not contribute. -/
def nbhdVals (m : Mask) (i j : ℕ) : List ℚ :=
  (List.range 3).flatMap (fun di =>
    (List.range 3).filterMap (fun dj =>
      let a : ℤ := (i : ℤ) + (di : ℤ) - 1
      let b : ℤ := (j : ℤ) + (dj : ℤ) - 1
      if 0 ≤ a ∧ a < (m.h : ℤ) ∧ 0 ≤ b ∧ b < (m.w : ℤ)
      then some (m.px a.toNat b.toNat) else none))

/-- One pass of `cv2.erode` with the full 3×3 kernel: the neighborhood
minimum.  The center pixel is in its own neighborhood whenever `(i, j)` is
in bounds, so seeding the fold with it does not change the minimum. -/
def erodeStep (m : Mask) : Mask :=
  ⟨m.h, m.w, fun i j => (nbhdVals m i j).foldl qmin (m.px i j)⟩

/-- One pass of `cv2.dilate` with the full 3×3 kernel: the neighborhood
maximum. -/
def dilateStep (m : Mask) : Mask :=
  ⟨m.h, m.w, fun i j => (nbhdVals m i j).foldl qmax (m.px i j)⟩

/-- Model of `cv2.erode(mask, kernel, iterations=n)` (source line 44). -/
def cv2erode (m : Mask) : ℕ → Mask
  | 0 => m
  | n + 1 => cv2erode (erodeStep m) n

/-- Model of `cv2.dilate(mask, kernel, iterations=n)` (source line 45). -/
def cv2dilate (m : Mask) : ℕ → Mask
  | 0 => m
  | n + 1 => cv2dilate (dilateStep m) n

/-- The whole mask pipeline, source lines 37-45: HSV threshold, divide by
255, Gaussian feathering, clip to `[0,1]`, one erosion, two dilations. -/
def processedMask (frame : Img8) (lo hi : Px8) (featherRadius : ℕ) : Mask :=
  let mask := binaryMask frame lo hi
  let mask := gaussianBlur featherRadius mask
  let mask := clip01 mask
  let mask := cv2erode mask 1
  let mask := cv2dilate mask 2
  mask

/-- Model of `frame.copy().astype(np.float32)` (source line 47): the cast of
an 8-bit image into the float domain.  The `.copy()` means the in-place
green-channel write of line 51 targets this fresh array, never the input. -/
def toFloatImg (img : Img8) : ImgF :=
  ⟨img.h, img.w, fun i j c => (img.px i j c : ℚ)⟩

/-- Source lines 48-51: green-spill decontamination.  Where the green
channel exceeds the red/blue average and the mask exceeds 0.05, the green
channel becomes `red_blue * (1 - spill_suppress) + green * spill_suppress`
(the source's line 51, coefficients exactly as written there); every other
channel and pixel is unchanged. -/
def spillCorrect (spillSuppress : ℚ) (mask : Mask) (f : ImgF) : ImgF :=
  ⟨f.h, f.w, fun i j c =>
    let g : ℚ := f.px i j 1
    let rb : ℚ := (f.px i j 0 + f.px i j 2) / 2
    if c.val = 1 ∧ rb < g ∧ 1/20 < mask.px i j
    then rb * (1 - spillSuppress) + g * spillSuppress
    else f.px i j c⟩

/-- Source line 53: `np.stack([mask]*3, axis=-1)`. -/
def stack3 (m : Mask) : ImgF := ⟨m.h, m.w, fun i j _ => m.px i j⟩

/-- Scalar-minus-array `1 - mask_3c` of source line 54. -/
def oneMinus (x : ImgF) : ImgF := ⟨x.h, x.w, fun i j c => 1 - x.px i j c⟩

/-- Channelwise product of two float pixels. -/
def pxMul (p q : PxF) : PxF := fun c => p c * q c

/-- Channelwise sum of two float pixels. -/
def pxAdd (p q : PxF) : PxF := fun c => p c + q c

/-- NumPy broadcasting of one axis: two extents are compatible when they
are equal or one of them is 1, and the broadcast extent is the larger. -/
def bcDim (a b : ℕ) : Option ℕ :=
  if a = b then some a
  else if a = 1 then some b
  else if b = 1 then some a
  else none

/-- Index into an axis of extent `n` under broadcasting: an axis of extent
1 is read at 0 regardless of the requested index. -/
def bcIdx (n i : ℕ) : ℕ := if n = 1 then 0 else i

/-- A NumPy binary elementwise operation with broadcasting: defined exactly
when both axes are compatible, otherwise the operation raises (modelled as
`none`). -/
def bcast2 (f : PxF → PxF → PxF) (x y : ImgF) : Option ImgF :=
  (bcDim x.h y.h).bind fun hh =>
    (bcDim x.w y.w).map fun ww =>
      ⟨hh, ww, fun i j =>
        f (x.px (bcIdx x.h i) (bcIdx x.w j)) (y.px (bcIdx y.h i) (bcIdx y.w j))⟩

/-- Source line 54: `frame_no_spill * (1 - mask_3c) + bg.astype(np.float32) * mask_3c`,
each of the three NumPy elementwise operations performed with broadcasting. -/
def blendF (fns bgF m3 : ImgF) : Option ImgF :=
  (bcast2 pxMul fns (oneMinus m3)).bind fun a =>
    (bcast2 pxMul bgF m3).bind fun b =>
      bcast2 pxAdd a b

/-- The image the broadcast blend of line 54 produces when the background
has the same dimensions as the frame (every broadcast is then trivial);
`blendF_eq` below proves `blendF` returns exactly this image in that case. -/
def blendPx (fns bgF m3 : ImgF) : ImgF :=
  ⟨fns.h, fns.w, fun i j =>
    pxAdd
      (pxMul (fns.px (bcIdx fns.h i) (bcIdx fns.w j))
        ((oneMinus m3).px (bcIdx fns.h i) (bcIdx fns.w j)))
      (pxMul (bgF.px (bcIdx fns.h i) (bcIdx fns.w j))
        (m3.px (bcIdx fns.h i) (bcIdx fns.w j)))⟩

/-- Model of `astype(np.uint8)` on a float (source line 55).  The C cast
truncates toward zero and is well defined only for values in `[0, 256)`;
within that range truncation coincides with the floor.  The clamp of
negatives to 0 and the reduction mod 256 merely totalize the function —
the range invariant proved below shows they never fire on pipeline
outputs. -/
def toU8 (x : ℚ) : ℕ := (⌊x⌋).toNat % 256

/-- Source line 55: `result.astype(np.uint8)` over a whole image. -/
def mapU8 (x : ImgF) : Img8 := ⟨x.h, x.w, fun i j c => toU8 (x.px i j c)⟩

/-- The floating-point composite before the final 8-bit cast: source
lines 47-54 assembled from the named stages above. -/
def compositeF (frame bg : Img8) (green_lower green_upper : Px8)
    (feather_radius : ℕ) (spill_suppress : ℚ) : Option ImgF :=
  let mask := processedMask frame green_lower green_upper feather_radius
  let frame_no_spill := spillCorrect spill_suppress mask (toFloatImg frame)
  let mask_3c := stack3 mask
  blendF frame_no_spill (toFloatImg bg) mask_3c

/-- The floating-point composite image in the equal-dimensions case;
`compositeF_eq` below proves `compositeF` returns exactly this image when
the background has the frame's dimensions. -/
def compositePx (frame bg : Img8) (lo hi : Px8) (r : ℕ) (s : ℚ) : ImgF :=
  blendPx (spillCorrect s (processedMask frame lo hi r) (toFloatImg frame))
    (toFloatImg bg) (stack3 (processedMask frame lo hi r))

/-- The full compositing transform, source lines 32-55 of
`src/green_screen_remover.py`. -/
def advanced_chroma_key (frame bg : Img8) (green_lower green_upper : Px8)
    (feather_radius : ℕ) (spill_suppress : ℚ) : Option Img8 :=
  (compositeF frame bg green_lower green_upper feather_radius spill_suppress).map mapU8

/-- A channel of the composited output, when it exists. -/
def outPx (r : Option Img8) (i j : ℕ) (c : Fin 3) : Option ℕ :=
  r.map fun o => o.px i j c

/-- Source line 11: `GREEN_LOWER = np.array([40, 100, 50])`. -/
def GREEN_LOWER : Px8 := fun c => if c.val = 0 then 40 else if c.val = 1 then 100 else 50

/-- Source line 12: `GREEN_UPPER = np.array([80, 255, 255])`. -/
def GREEN_UPPER : Px8 := fun c => if c.val = 0 then 80 else 255

/-- A pure-green BGR pixel, inside the key range. -/
def pxGreen : Px8 := fun c => if c.val = 1 then 255 else 0

/-- A pure-red BGR pixel, outside the key range. -/
def pxRed : Px8 := fun c => if c.val = 2 then 255 else 0

/-- A black BGR pixel. -/
def pxBlack : Px8 := fun _ => 0

/-- A white BGR pixel. -/
def pxWhite : Px8 := fun _ => 255

/-- A 1×1 all-green frame. -/
def frameG1 : Img8 := ⟨1, 1, fun _ _ => pxGreen⟩

/-- A 1×1 all-red frame. -/
def frameR1 : Img8 := ⟨1, 1, fun _ _ => pxRed⟩

/-- A 1×1 all-white background. -/
def bgW1 : Img8 := ⟨1, 1, fun _ _ => pxWhite⟩

/-- A 1×2 frame: a green pixel next to a red pixel. -/
def frameGR : Img8 := ⟨1, 2, fun _ j => if j = 0 then pxGreen else pxRed⟩

/-- A 1×2 all-black background, same dimensions as `frameGR`. -/
def bgBlack12 : Img8 := ⟨1, 2, fun _ _ => pxBlack⟩

/-! ### Basic lemmas about the embedded primitives -/

theorem qmin_eq_min (a b : ℚ) : qmin a b = min a b := by
  unfold qmin; rw [min_def]

theorem qmax_eq_max (a b : ℚ) : qmax a b = max a b := by
  unfold qmax; rw [max_def]

theorem foldl_qmin_le (l : List ℚ) (a c : ℚ) (h : a ≤ c) : l.foldl qmin a ≤ c := by
  induction l generalizing a with
  | nil => exact h
  | cons x xs ih =>
      exact ih _ (le_trans (by rw [qmin_eq_min]; exact min_le_left a x) h)

theorem le_foldl_qmin (l : List ℚ) (a c : ℚ) (h : c ≤ a) (hl : ∀ x ∈ l, c ≤ x) :
    c ≤ l.foldl qmin a := by
  induction l generalizing a with
  | nil => exact h
  | cons x xs ih =>
      exact ih _ (by rw [qmin_eq_min]; exact le_min h (hl x (by simp)))
        (fun y hy => hl y (by simp [hy]))

theorem le_foldl_qmax (l : List ℚ) (a c : ℚ) (h : c ≤ a) : c ≤ l.foldl qmax a := by
  induction l generalizing a with
  | nil => exact h
  | cons x xs ih =>
      exact ih _ (le_trans h (by rw [qmax_eq_max]; exact le_max_left a x))

theorem foldl_qmax_le (l : List ℚ) (a c : ℚ) (h : a ≤ c) (hl : ∀ x ∈ l, x ≤ c) :
    l.foldl qmax a ≤ c := by
  induction l generalizing a with
  | nil => exact h
  | cons x xs ih =>
      exact ih _ (by rw [qmax_eq_max]; exact max_le h (hl x (by simp)))
        (fun y hy => hl y (by simp [hy]))

theorem mem_nbhdVals {m : Mask} {i j : ℕ} {x : ℚ} (hx : x ∈ nbhdVals m i j) :
    ∃ a b, x = m.px a b := by
  simp only [nbhdVals, List.mem_flatMap, List.mem_filterMap] at hx
  obtain ⟨di, -, dj, -, heq⟩ := hx
  split at heq
  · exact ⟨_, _, (Option.some_inj.mp heq).symm⟩
  · exact absurd heq (by simp)

theorem clip01_mem (m : Mask) (i j : ℕ) :
    0 ≤ (clip01 m).px i j ∧ (clip01 m).px i j ≤ 1 := by
  simp only [clip01, qmin_eq_min, qmax_eq_max]
  exact ⟨le_min (by norm_num) (le_max_left 0 _), min_le_left 1 _⟩

theorem erodeStep_mem {m : Mask} (hm : ∀ i j, 0 ≤ m.px i j ∧ m.px i j ≤ 1) :
    ∀ i j, 0 ≤ (erodeStep m).px i j ∧ (erodeStep m).px i j ≤ 1 := by
  intro i j
  refine ⟨le_foldl_qmin _ _ _ (hm i j).1 ?_, foldl_qmin_le _ _ _ (hm i j).2⟩
  intro x hx
  obtain ⟨a, b, rfl⟩ := mem_nbhdVals hx
  exact (hm a b).1

theorem dilateStep_mem {m : Mask} (hm : ∀ i j, 0 ≤ m.px i j ∧ m.px i j ≤ 1) :
    ∀ i j, 0 ≤ (dilateStep m).px i j ∧ (dilateStep m).px i j ≤ 1 := by
  intro i j
  refine ⟨le_foldl_qmax _ _ _ (hm i j).1, foldl_qmax_le _ _ _ (hm i j).2 ?_⟩
  intro x hx
  obtain ⟨a, b, rfl⟩ := mem_nbhdVals hx
  exact (hm a b).2

theorem cv2erode_mem (n : ℕ) :
    ∀ m : Mask, (∀ i j, 0 ≤ m.px i j ∧ m.px i j ≤ 1) →
      ∀ i j, 0 ≤ (cv2erode m n).px i j ∧ (cv2erode m n).px i j ≤ 1 := by
  induction n with
  | zero => exact fun m hm => hm
  | succ k ih => exact fun m hm => ih _ (erodeStep_mem hm)

theorem cv2dilate_mem (n : ℕ) :
    ∀ m : Mask, (∀ i j, 0 ≤ m.px i j ∧ m.px i j ≤ 1) →
      ∀ i j, 0 ≤ (cv2dilate m n).px i j ∧ (cv2dilate m n).px i j ≤ 1 := by
  induction n with
  | zero => exact fun m hm => hm
  | succ k ih => exact fun m hm => ih _ (dilateStep_mem hm)

/-- Every value of the fully processed mask lies in `[0,1]`: the clip after
the blur establishes the range and erosion/dilation preserve it. -/
theorem processedMask_mem (frame : Img8) (lo hi : Px8) (r : ℕ) :
    ∀ i j, 0 ≤ (processedMask frame lo hi r).px i j ∧
      (processedMask frame lo hi r).px i j ≤ 1 := by
  unfold processedMask
  exact cv2dilate_mem 2 _ (cv2erode_mem 1 _ (clip01_mem _))

theorem bcIdx_of_lt {n i : ℕ} (h : i < n) : bcIdx n i = i := by
  unfold bcIdx
  split
  · omega
  · rfl

theorem bcIdx_idem (n i : ℕ) : bcIdx n (bcIdx n i) = bcIdx n i := by
  unfold bcIdx
  split <;> rfl

theorem bcDim_self (a : ℕ) : bcDim a a = some a := by simp [bcDim]

theorem bcDim_isSome_iff (a b : ℕ) :
    (bcDim a b).isSome = true ↔ (a = b ∨ a = 1 ∨ b = 1) := by
  unfold bcDim
  split_ifs <;> simp_all

theorem bcDim_absorb' {a b d : ℕ} (h : bcDim a b = some d) : bcDim b d = some d := by
  unfold bcDim at h ⊢
  split_ifs at h with h1 h2 h3 <;> injection h with h' <;> subst h' <;>
    split_ifs <;> simp_all

/-! ### Dimension lemmas (all stages preserve the frame's dimensions) -/

theorem processedMask_h (frame : Img8) (lo hi : Px8) (r : ℕ) :
    (processedMask frame lo hi r).h = frame.h := rfl

theorem processedMask_w (frame : Img8) (lo hi : Px8) (r : ℕ) :
    (processedMask frame lo hi r).w = frame.w := rfl

theorem spillCorrect_h (s : ℚ) (m : Mask) (f : ImgF) : (spillCorrect s m f).h = f.h := rfl

theorem spillCorrect_w (s : ℚ) (m : Mask) (f : ImgF) : (spillCorrect s m f).w = f.w := rfl

/-! ### Pointwise description of the blend, for images of equal dimensions -/

theorem blendF_eq (fns bgF m3 : ImgF)
    (hbh : bgF.h = fns.h) (hbw : bgF.w = fns.w)
    (hmh : m3.h = fns.h) (hmw : m3.w = fns.w) :
    blendF fns bgF m3 = some (blendPx fns bgF m3) := by
  unfold blendF bcast2 blendPx
  simp only [oneMinus, hbh, hbw, hmh, hmw, bcDim_self, Option.some_bind, Option.map_some',
    bcIdx_idem]

theorem blendPx_px (fns bgF m3 : ImgF) {i j : ℕ}
    (hi : i < fns.h) (hj : j < fns.w) (c : Fin 3) :
    (blendPx fns bgF m3).px i j c =
      fns.px i j c * (1 - m3.px i j c) + bgF.px i j c * m3.px i j c := by
  simp only [blendPx, oneMinus, pxMul, pxAdd, bcIdx_of_lt hi, bcIdx_of_lt hj]

theorem compositeF_eq (frame bg : Img8) (lo hi : Px8) (r : ℕ) (s : ℚ)
    (hh : bg.h = frame.h) (hw : bg.w = frame.w) :
    compositeF frame bg lo hi r s = some (compositePx frame bg lo hi r s) :=
  blendF_eq _ _ _ hh hw rfl rfl

theorem ack_eq (frame bg : Img8) (lo hi : Px8) (r : ℕ) (s : ℚ)
    (hh : bg.h = frame.h) (hw : bg.w = frame.w) :
    advanced_chroma_key frame bg lo hi r s =
      some (mapU8 (compositePx frame bg lo hi r s)) := by
  unfold advanced_chroma_key
  rw [compositeF_eq frame bg lo hi r s hh hw, Option.map_some']

theorem compositePx_px (frame bg : Img8) (lo hi : Px8) (r : ℕ) (s : ℚ)
    {i j : ℕ} (hI : i < frame.h) (hJ : j < frame.w) (c : Fin 3) :
    (compositePx frame bg lo hi r s).px i j c =
      (spillCorrect s (processedMask frame lo hi r) (toFloatImg frame)).px i j c *
          (1 - (processedMask frame lo hi r).px i j) +
        (bg.px i j c : ℚ) * (processedMask frame lo hi r).px i j := by
  have h := blendPx_px (spillCorrect s (processedMask frame lo hi r) (toFloatImg frame))
    (toFloatImg bg) (stack3 (processedMask frame lo hi r)) (i := i) (j := j) hI hJ c
  simpa only [stack3, toFloatImg] using h

/-! ### The 8-bit cast -/

theorem toU8_natCast {n : ℕ} (h : n ≤ 255) : toU8 (n : ℚ) = n := by
  unfold toU8
  rw [Int.floor_natCast]
  simp only [Int.toNat_natCast]
  omega

theorem toU8_mono {x y : ℚ} (hxy : x ≤ y) (hy : y ≤ 255) :
    toU8 x ≤ toU8 y := by
  unfold toU8
  have h1 : ⌊x⌋ ≤ ⌊y⌋ := Int.floor_le_floor hxy
  have h2 : ⌊y⌋ ≤ 255 := by
    have := Int.floor_le_floor hy
    simpa using this
  have h4 : (⌊x⌋).toNat ≤ (⌊y⌋).toNat := Int.toNat_le_toNat h1
  rw [Nat.mod_eq_of_lt (by omega), Nat.mod_eq_of_lt (by omega)]
  exact h4

theorem toU8_eq_floor_toNat {x : ℚ} (hy : x ≤ 255) :
    toU8 x = (⌊x⌋).toNat := by
  unfold toU8
  have h2 : ⌊x⌋ ≤ 255 := by
    have := Int.floor_le_floor hy
    simpa using this
  exact Nat.mod_eq_of_lt (by omega)

/-! ### Range invariants for the float composite -/

theorem convex_mem {a b t : ℚ} (ha0 : 0 ≤ a) (ha : a ≤ 255) (hb0 : 0 ≤ b) (hb : b ≤ 255)
    (ht0 : 0 ≤ t) (ht1 : t ≤ 1) :
    0 ≤ a * (1 - t) + b * t ∧ a * (1 - t) + b * t ≤ 255 := by
  constructor <;> nlinarith

theorem spillCorrect_mem (s : ℚ) (mask : Mask) (f8 : Img8)
    (hf : ∀ i j c, f8.px i j c ≤ 255) (hs0 : 0 ≤ s) (hs1 : s ≤ 1) :
    ∀ i j c, 0 ≤ (spillCorrect s mask (toFloatImg f8)).px i j c ∧
      (spillCorrect s mask (toFloatImg f8)).px i j c ≤ 255 := by
  intro i j c
  have hc : ∀ d : Fin 3, (0 : ℚ) ≤ (f8.px i j d : ℚ) ∧ ((f8.px i j d : ℚ)) ≤ 255 := by
    intro d
    exact ⟨by positivity, by exact_mod_cast hf i j d⟩
  simp only [spillCorrect, toFloatImg]
  split
  · have h0 := hc 0
    have h1 := hc 1
    have h2 := hc 2
    exact convex_mem (by linarith [h0.1, h2.1]) (by linarith [h0.2, h2.2]) h1.1 h1.2
      (by linarith) (by linarith)
  · exact hc c

theorem compositePx_mem (frame bg : Img8) (lo hi : Px8) (r : ℕ) (s : ℚ)
    (hf : ∀ i j c, frame.px i j c ≤ 255) (hb : ∀ i j c, bg.px i j c ≤ 255)
    (hs0 : 0 ≤ s) (hs1 : s ≤ 1) {i j : ℕ} (hI : i < frame.h) (hJ : j < frame.w) (c : Fin 3) :
    0 ≤ (compositePx frame bg lo hi r s).px i j c ∧
      (compositePx frame bg lo hi r s).px i j c ≤ 255 := by
  rw [compositePx_px frame bg lo hi r s hI hJ c]
  have hm := processedMask_mem frame lo hi r i j
  have hsp := spillCorrect_mem s (processedMask frame lo hi r) frame hf hs0 hs1 i j c
  have hbg : (0 : ℚ) ≤ (bg.px i j c : ℚ) ∧ ((bg.px i j c : ℚ)) ≤ 255 :=
    ⟨by positivity, by exact_mod_cast hb i j c⟩
  exact convex_mem hsp.1 hsp.2 hbg.1 hbg.2 hm.1 hm.2

/-! ### Structural dimension lemmas for the pipeline stages -/

@[simp] theorem erodeStep_h (m : Mask) : (erodeStep m).h = m.h := rfl
@[simp] theorem erodeStep_w (m : Mask) : (erodeStep m).w = m.w := rfl
@[simp] theorem dilateStep_h (m : Mask) : (dilateStep m).h = m.h := rfl
@[simp] theorem dilateStep_w (m : Mask) : (dilateStep m).w = m.w := rfl
@[simp] theorem clip01_h (m : Mask) : (clip01 m).h = m.h := rfl
@[simp] theorem clip01_w (m : Mask) : (clip01 m).w = m.w := rfl
@[simp] theorem gaussianBlur_h (k : ℕ) (m : Mask) : (gaussianBlur k m).h = m.h := rfl
@[simp] theorem gaussianBlur_w (k : ℕ) (m : Mask) : (gaussianBlur k m).w = m.w := rfl
@[simp] theorem binaryMask_h (f : Img8) (lo hi : Px8) : (binaryMask f lo hi).h = f.h := rfl
@[simp] theorem binaryMask_w (f : Img8) (lo hi : Px8) : (binaryMask f lo hi).w = f.w := rfl

theorem cv2erode_one (m : Mask) : cv2erode m 1 = erodeStep m := rfl

theorem cv2dilate_two (m : Mask) : cv2dilate m 2 = dilateStep (dilateStep m) := rfl

@[simp] theorem frameG1_h : frameG1.h = 1 := rfl
@[simp] theorem frameG1_w : frameG1.w = 1 := rfl
@[simp] theorem frameR1_h : frameR1.h = 1 := rfl
@[simp] theorem frameR1_w : frameR1.w = 1 := rfl
@[simp] theorem frameGR_h : frameGR.h = 1 := rfl
@[simp] theorem frameGR_w : frameGR.w = 2 := rfl
@[simp] theorem bgW1_h : bgW1.h = 1 := rfl
@[simp] theorem bgW1_w : bgW1.w = 1 := rfl
@[simp] theorem bgBlack12_h : bgBlack12.h = 1 := rfl
@[simp] theorem bgBlack12_w : bgBlack12.w = 2 := rfl

/-! ### Concrete evaluation of the pipeline on the small test frames -/

theorem eval_binG1 : ∀ i j, (binaryMask frameG1 GREEN_LOWER GREEN_UPPER).px i j = 1 := by
  intro i j
  norm_num +decide [binaryMask, inRange, inRangeCond, cvtColorBGR2HSV, cvtPx, rnd,
    qmin, qmax, frameG1, pxGreen, GREEN_LOWER, GREEN_UPPER]

theorem eval_binR1 : ∀ i j, (binaryMask frameR1 GREEN_LOWER GREEN_UPPER).px i j = 0 := by
  intro i j
  norm_num +decide [binaryMask, inRange, inRangeCond, cvtColorBGR2HSV, cvtPx, rnd,
    qmin, qmax, frameR1, pxRed, GREEN_LOWER, GREEN_UPPER]

theorem qmin_self (a : ℚ) : qmin a a = a := by simp [qmin]

theorem qmax_self (a : ℚ) : qmax a a = a := by simp [qmax]

theorem getD1_zero (a : ℚ) : [a].getD 0 0 = a := rfl

theorem getD3_zero (a b c : ℚ) : [a, b, c].getD 0 0 = a := rfl

theorem getD3_one (a b c : ℚ) : [a, b, c].getD 1 0 = b := rfl

theorem getD3_two (a b c : ℚ) : [a, b, c].getD 2 0 = c := rfl

theorem gaussKernel_one : gaussKernel 1 = [1] := rfl

theorem gaussKernel_three : gaussKernel 3 = [1/4, 1/2, 1/4] := rfl

theorem eval_clipblurG1 :
    ∀ i j, (clip01 (gaussianBlur 1 (binaryMask frameG1 GREEN_LOWER GREEN_UPPER))).px i j = 1 := by
  intro i j
  norm_num [clip01, gaussianBlur, gaussKernel_one, blurWith, borderReflect101,
    List.range_succ, List.range_zero, getD1_zero, qmin, qmax, eval_binG1]

theorem eval_clipblurR1 :
    ∀ i j, (clip01 (gaussianBlur 1 (binaryMask frameR1 GREEN_LOWER GREEN_UPPER))).px i j = 0 := by
  intro i j
  norm_num [clip01, gaussianBlur, gaussKernel_one, blurWith, borderReflect101,
    List.range_succ, List.range_zero, getD1_zero, qmin, qmax, eval_binR1]

theorem erode_1x1 (m : Mask) (hh : m.h = 1) (hw : m.w = 1) :
    (erodeStep m).px 0 0 = m.px 0 0 := by
  norm_num [erodeStep, nbhdVals, List.range_succ, List.range_zero, List.flatMap_cons,
    List.flatMap_nil, List.filterMap_cons, List.filterMap_nil, List.append_nil,
    List.nil_append, List.cons_append, List.append_assoc, hh, hw, qmin_self]

theorem dilate_1x1 (m : Mask) (hh : m.h = 1) (hw : m.w = 1) :
    (dilateStep m).px 0 0 = m.px 0 0 := by
  norm_num [dilateStep, nbhdVals, List.range_succ, List.range_zero, List.flatMap_cons,
    List.flatMap_nil, List.filterMap_cons, List.filterMap_nil, List.append_nil,
    List.nil_append, List.cons_append, List.append_assoc, hh, hw, qmax_self]

theorem eval_pmG1 : (processedMask frameG1 GREEN_LOWER GREEN_UPPER 1).px 0 0 = 1 := by
  show (dilateStep (dilateStep (erodeStep
    (clip01 (gaussianBlur 1 (binaryMask frameG1 GREEN_LOWER GREEN_UPPER)))))).px 0 0 = 1
  rw [dilate_1x1 _ (by simp) (by simp), dilate_1x1 _ (by simp) (by simp),
    erode_1x1 _ (by simp) (by simp), eval_clipblurG1]

theorem eval_pmR1 : (processedMask frameR1 GREEN_LOWER GREEN_UPPER 1).px 0 0 = 0 := by
  show (dilateStep (dilateStep (erodeStep
    (clip01 (gaussianBlur 1 (binaryMask frameR1 GREEN_LOWER GREEN_UPPER)))))).px 0 0 = 0
  rw [dilate_1x1 _ (by simp) (by simp), dilate_1x1 _ (by simp) (by simp),
    erode_1x1 _ (by simp) (by simp), eval_clipblurR1]

theorem frameGR_px0 : frameGR.px 0 0 = pxGreen := rfl

theorem frameGR_px1 : frameGR.px 0 1 = pxRed := rfl

theorem intToNat0 : (0 : ℤ).toNat = 0 := rfl

theorem intToNat1 : (1 : ℤ).toNat = 1 := rfl

theorem intToNat2 : (2 : ℤ).toNat = 2 := rfl

theorem intToNat3 : (3 : ℤ).toNat = 3 := rfl

theorem finval0 : (0 : Fin 3).val = 0 := rfl

theorem finval1 : (1 : Fin 3).val = 1 := rfl

theorem finval2 : (2 : Fin 3).val = 2 := rfl

theorem eval_binGR0 : (binaryMask frameGR GREEN_LOWER GREEN_UPPER).px 0 0 = 1 := by
  norm_num +decide [binaryMask, inRange, inRangeCond, cvtColorBGR2HSV, cvtPx, rnd,
    qmin, qmax, frameGR, pxGreen, GREEN_LOWER, GREEN_UPPER]

theorem eval_binGR1 : (binaryMask frameGR GREEN_LOWER GREEN_UPPER).px 0 1 = 0 := by
  norm_num +decide [binaryMask, inRange, inRangeCond, cvtColorBGR2HSV, cvtPx, rnd,
    qmin, qmax, frameGR, pxRed, GREEN_LOWER, GREEN_UPPER]

theorem eval_cb3GR0 :
    (clip01 (gaussianBlur 3 (binaryMask frameGR GREEN_LOWER GREEN_UPPER))).px 0 0 = 1/2 := by
  norm_num [clip01, gaussianBlur, gaussKernel_three, blurWith, borderReflect101,
    List.range_succ, List.range_zero, getD3_zero, getD3_one, getD3_two,
    Int.toNat_ofNat, Int.toNat_zero, Int.toNat_one,
    qmin, qmax, eval_binGR0, eval_binGR1]

theorem eval_cb3GR1 :
    (clip01 (gaussianBlur 3 (binaryMask frameGR GREEN_LOWER GREEN_UPPER))).px 0 1 = 1/2 := by
  norm_num [clip01, gaussianBlur, gaussKernel_three, blurWith, borderReflect101,
    List.range_succ, List.range_zero, getD3_zero, getD3_one, getD3_two,
    Int.toNat_ofNat, Int.toNat_zero, Int.toNat_one,
    qmin, qmax, eval_binGR0, eval_binGR1]

theorem erode_1x2_const (m : Mask) (hh : m.h = 1) (hw : m.w = 2) (v : ℚ)
    (h0 : m.px 0 0 = v) (h1 : m.px 0 1 = v) :
    (erodeStep m).px 0 0 = v ∧ (erodeStep m).px 0 1 = v := by
  constructor <;>
    norm_num [erodeStep, nbhdVals, List.range_succ, List.range_zero, List.flatMap_cons,
      List.flatMap_nil, List.filterMap_cons, List.filterMap_nil, List.append_nil,
      List.nil_append, List.cons_append, List.append_assoc,
      intToNat0, intToNat1, intToNat2, intToNat3, hh, hw, h0, h1, qmin_self]

theorem dilate_1x2_const (m : Mask) (hh : m.h = 1) (hw : m.w = 2) (v : ℚ)
    (h0 : m.px 0 0 = v) (h1 : m.px 0 1 = v) :
    (dilateStep m).px 0 0 = v ∧ (dilateStep m).px 0 1 = v := by
  constructor <;>
    norm_num [dilateStep, nbhdVals, List.range_succ, List.range_zero, List.flatMap_cons,
      List.flatMap_nil, List.filterMap_cons, List.filterMap_nil, List.append_nil,
      List.nil_append, List.cons_append, List.append_assoc,
      intToNat0, intToNat1, intToNat2, intToNat3, hh, hw, h0, h1, qmax_self]

theorem eval_pmGR : (processedMask frameGR GREEN_LOWER GREEN_UPPER 3).px 0 0 = 1/2 := by
  show (dilateStep (dilateStep (erodeStep
    (clip01 (gaussianBlur 3 (binaryMask frameGR GREEN_LOWER GREEN_UPPER)))))).px 0 0 = 1/2
  have he := erode_1x2_const _ (by simp) (by simp) _ eval_cb3GR0 eval_cb3GR1
  have hd1 := dilate_1x2_const _ (by simp) (by simp) _ he.1 he.2
  have hd2 := dilate_1x2_const _ (by simp) (by simp) _ hd1.1 hd1.2
  exact hd2.1

theorem eval_spillGR (s : ℚ) :
    (spillCorrect s (processedMask frameGR GREEN_LOWER GREEN_UPPER 3)
      (toFloatImg frameGR)).px 0 0 1 = 255 * s := by
  norm_num [spillCorrect, toFloatImg, frameGR_px0, pxGreen, finval0, finval1, finval2,
    eval_pmGR]

theorem frameG1_px : ∀ i j, frameG1.px i j = pxGreen := fun _ _ => rfl

theorem frameR1_px : ∀ i j, frameR1.px i j = pxRed := fun _ _ => rfl

theorem bgW1_px : ∀ i j, bgW1.px i j = pxWhite := fun _ _ => rfl

theorem bgBlack12_px : ∀ i j, bgBlack12.px i j = pxBlack := fun _ _ => rfl

theorem pxGreen_le : ∀ c : Fin 3, pxGreen c ≤ 255 := by
  intro c; unfold pxGreen; split <;> norm_num

theorem pxRed_le : ∀ c : Fin 3, pxRed c ≤ 255 := by
  intro c; unfold pxRed; split <;> norm_num

theorem pxBlack_le : ∀ c : Fin 3, pxBlack c ≤ 255 := by
  intro c; unfold pxBlack; norm_num

theorem pxWhite_le : ∀ c : Fin 3, pxWhite c ≤ 255 := by
  intro c; unfold pxWhite; norm_num

theorem frameG1_le : ∀ i j c, frameG1.px i j c ≤ 255 := fun _ _ c => pxGreen_le c

theorem frameR1_le : ∀ i j c, frameR1.px i j c ≤ 255 := fun _ _ c => pxRed_le c

theorem bgW1_le : ∀ i j c, bgW1.px i j c ≤ 255 := fun _ _ c => pxWhite_le c

theorem bgBlack12_le : ∀ i j c, bgBlack12.px i j c ≤ 255 := fun _ _ c => pxBlack_le c

theorem frameGR_le : ∀ i j c, frameGR.px i j c ≤ 255 := by
  intro i j c
  show (if j = 0 then pxGreen else pxRed) c ≤ 255
  split
  · exact pxGreen_le c
  · exact pxRed_le c

theorem eval_spillG1 (s : ℚ) :
    (spillCorrect s (processedMask frameG1 GREEN_LOWER GREEN_UPPER 1)
      (toFloatImg frameG1)).px 0 0 1 = 255 * s := by
  norm_num [spillCorrect, toFloatImg, frameG1_px, pxGreen, finval0, finval1, finval2,
    eval_pmG1]

theorem eval_out_GR1 :
    outPx (advanced_chroma_key frameGR bgBlack12 GREEN_LOWER GREEN_UPPER 3 1) 0 0 1 =
      some 127 := by
  rw [ack_eq frameGR bgBlack12 GREEN_LOWER GREEN_UPPER 3 1 rfl rfl]
  show some (toU8 ((compositePx frameGR bgBlack12 GREEN_LOWER GREEN_UPPER 3 1).px 0 0 1)) = _
  rw [compositePx_px frameGR bgBlack12 GREEN_LOWER GREEN_UPPER 3 1
    (by norm_num) (by norm_num) 1]
  rw [eval_spillGR 1, eval_pmGR]
  norm_num [bgBlack12_px, pxBlack, toU8]
  decide

theorem eval_out_GR0 :
    outPx (advanced_chroma_key frameGR bgBlack12 GREEN_LOWER GREEN_UPPER 3 0) 0 0 1 =
      some 0 := by
  rw [ack_eq frameGR bgBlack12 GREEN_LOWER GREEN_UPPER 3 0 rfl rfl]
  show some (toU8 ((compositePx frameGR bgBlack12 GREEN_LOWER GREEN_UPPER 3 0).px 0 0 1)) = _
  rw [compositePx_px frameGR bgBlack12 GREEN_LOWER GREEN_UPPER 3 0
    (by norm_num) (by norm_num) 1]
  rw [eval_spillGR 0, eval_pmGR]
  norm_num [bgBlack12_px, pxBlack, toU8]

theorem oneMinus_h (x : ImgF) : (oneMinus x).h = x.h := rfl

theorem oneMinus_w (x : ImgF) : (oneMinus x).w = x.w := rfl

theorem stack3_h (m : Mask) : (stack3 m).h = m.h := rfl

theorem stack3_w (m : Mask) : (stack3 m).w = m.w := rfl

theorem toFloatImg_h (x : Img8) : (toFloatImg x).h = x.h := rfl

theorem toFloatImg_w (x : Img8) : (toFloatImg x).w = x.w := rfl

theorem ack_isSome_eq (frame bg : Img8) (lo hi : Px8) (r : ℕ) (s : ℚ) :
    (advanced_chroma_key frame bg lo hi r s).isSome =
      ((bcDim bg.h frame.h).isSome && (bcDim bg.w frame.w).isSome) := by
  unfold advanced_chroma_key compositeF blendF bcast2
  simp only [spillCorrect_h, spillCorrect_w, oneMinus_h, oneMinus_w, stack3_h, stack3_w,
    toFloatImg_h, toFloatImg_w, processedMask_h, processedMask_w, bcDim_self,
    Option.some_bind, Option.map_some']
  rcases hH : bcDim bg.h frame.h with _ | dh
  · simp
  rcases hW : bcDim bg.w frame.w with _ | dw
  · simp
  simp only [Option.some_bind, Option.map_some']
  rw [bcDim_absorb' hH, bcDim_absorb' hW]
  simp

/-! ### Claim theorems -/

/-- Claim C1, counterexample: at the all-green 1×1 frame the spill condition
holds (green exceeds the red/blue average and the processed mask exceeds
0.05), yet the spill step produces green value `357/2 = 0·(1-0.7)+255·0.7`,
not the claimed `avgRedBlue·0.7 + oldGreen·(1-0.7) = 153/2`: the claim's
blend coefficients are swapped relative to source line 51. -/
theorem spill_formula_cex :
    ((toFloatImg frameG1).px 0 0 0 + (toFloatImg frameG1).px 0 0 2) / 2 <
        (toFloatImg frameG1).px 0 0 1 ∧
      1/20 < (processedMask frameG1 GREEN_LOWER GREEN_UPPER 1).px 0 0 ∧
      (spillCorrect (7/10) (processedMask frameG1 GREEN_LOWER GREEN_UPPER 1)
          (toFloatImg frameG1)).px 0 0 1 = 357/2 ∧
      ((toFloatImg frameG1).px 0 0 0 + (toFloatImg frameG1).px 0 0 2) / 2 * (7/10) +
          (toFloatImg frameG1).px 0 0 1 * (1 - 7/10) = 153/2 ∧
      (357/2 : ℚ) ≠ 153/2 := by
  refine ⟨?_, ?_, ?_, ?_, by norm_num⟩
  · norm_num [toFloatImg, frameG1_px, pxGreen, finval0, finval1, finval2]
  · rw [eval_pmG1]; norm_num
  · rw [eval_spillG1]; norm_num
  · norm_num [toFloatImg, frameG1_px, pxGreen, finval0, finval1, finval2]

/-- Claim C1, amended: where the green channel exceeds the red/blue average
and the processed mask exceeds 0.05, the spill step replaces the green
channel with `avgRedBlue * (1 - spillSuppression) + oldGreen *
spillSuppression` (the coefficients of source line 51, which are the
reverse of the claim's), computed in real arithmetic; all other pixels and
channels are unchanged. -/
theorem spill_formula_amended (frame : Img8) (lo hi : Px8) (r : ℕ) (s : ℚ) (i j : ℕ) :
    ((spillCorrect s (processedMask frame lo hi r) (toFloatImg frame)).px i j 1 =
      if ((toFloatImg frame).px i j 0 + (toFloatImg frame).px i j 2) / 2 <
            (toFloatImg frame).px i j 1 ∧
          1/20 < (processedMask frame lo hi r).px i j
      then ((toFloatImg frame).px i j 0 + (toFloatImg frame).px i j 2) / 2 * (1 - s) +
            (toFloatImg frame).px i j 1 * s
      else (toFloatImg frame).px i j 1) ∧
    ∀ c : Fin 3, c ≠ 1 →
      (spillCorrect s (processedMask frame lo hi r) (toFloatImg frame)).px i j c =
        (toFloatImg frame).px i j c := by
  constructor
  · simp only [spillCorrect, finval1, eq_self_iff_true, true_and]
  · intro c hc
    simp only [spillCorrect]
    rw [if_neg]
    rintro ⟨h1, -, -⟩
    exact hc (Fin.ext (h1.trans finval1.symm))

/-- Witness for the amended C1 theorem at a concrete input. -/
theorem spill_formula_amended_witness :
    ((spillCorrect (7/10) (processedMask frameG1 GREEN_LOWER GREEN_UPPER 1)
        (toFloatImg frameG1)).px 0 0 1 =
      if ((toFloatImg frameG1).px 0 0 0 + (toFloatImg frameG1).px 0 0 2) / 2 <
            (toFloatImg frameG1).px 0 0 1 ∧
          1/20 < (processedMask frameG1 GREEN_LOWER GREEN_UPPER 1).px 0 0
      then ((toFloatImg frameG1).px 0 0 0 + (toFloatImg frameG1).px 0 0 2) / 2 * (1 - 7/10) +
            (toFloatImg frameG1).px 0 0 1 * (7/10)
      else (toFloatImg frameG1).px 0 0 1) ∧
    (spillCorrect (7/10) (processedMask frameG1 GREEN_LOWER GREEN_UPPER 1)
        (toFloatImg frameG1)).px 0 0 0 = (toFloatImg frameG1).px 0 0 0 :=
  ⟨(spill_formula_amended frameG1 GREEN_LOWER GREEN_UPPER 1 (7/10) 0 0).1,
    (spill_formula_amended frameG1 GREEN_LOWER GREEN_UPPER 1 (7/10) 0 0).2 0 (by decide)⟩

/-- Claim C2, counterexample: at the green/red 1×2 frame over a black
background the pixel (0,0) satisfies the spill condition, and raising
`spillSuppression` from 0 to 1 raises the output green byte from 0 to 127
— the opposite of the claimed non-increase. -/
theorem spill_monotonicity_cex :
    ((0:ℚ) ≤ 1) ∧
      ((toFloatImg frameGR).px 0 0 0 + (toFloatImg frameGR).px 0 0 2) / 2 <
        (toFloatImg frameGR).px 0 0 1 ∧
      1/20 < (processedMask frameGR GREEN_LOWER GREEN_UPPER 3).px 0 0 ∧
      outPx (advanced_chroma_key frameGR bgBlack12 GREEN_LOWER GREEN_UPPER 3 1) 0 0 1 =
        some 127 ∧
      outPx (advanced_chroma_key frameGR bgBlack12 GREEN_LOWER GREEN_UPPER 3 0) 0 0 1 =
        some 0 ∧
      ¬(127 ≤ 0) := by
  refine ⟨by norm_num, ?_, ?_, eval_out_GR1, eval_out_GR0, by norm_num⟩
  · norm_num [toFloatImg, frameGR_px0, pxGreen, finval0, finval1, finval2]
  · rw [eval_pmGR]; norm_num

/-- Claim C2, amended: the output green byte at a pixel satisfying the
spill condition is monotonically non-DEcreasing in `spillSuppression` on
`[0,1]` (source line 51 keeps a fraction `spill_suppress` of the original
green, so larger values suppress less). -/
theorem spill_monotone_nondecreasing
    (frame bg : Img8) (lo hi : Px8) (r : ℕ) (s1 s2 : ℚ) (i j : ℕ)
    (hf : ∀ a b c, frame.px a b c ≤ 255) (hb : ∀ a b c, bg.px a b c ≤ 255)
    (hh : bg.h = frame.h) (hw : bg.w = frame.w)
    (hI : i < frame.h) (hJ : j < frame.w)
    (h0 : 0 ≤ s1) (h12 : s1 ≤ s2) (h21 : s2 ≤ 1)
    (hg : ((toFloatImg frame).px i j 0 + (toFloatImg frame).px i j 2) / 2 <
      (toFloatImg frame).px i j 1)
    (hm : 1/20 < (processedMask frame lo hi r).px i j) :
    ∃ o1 o2, advanced_chroma_key frame bg lo hi r s1 = some o1 ∧
      advanced_chroma_key frame bg lo hi r s2 = some o2 ∧
      o1.px i j 1 ≤ o2.px i j 1 := by
  refine ⟨_, _, ack_eq frame bg lo hi r s1 hh hw, ack_eq frame bg lo hi r s2 hh hw, ?_⟩
  show toU8 ((compositePx frame bg lo hi r s1).px i j 1) ≤
    toU8 ((compositePx frame bg lo hi r s2).px i j 1)
  have hsv : ∀ t : ℚ,
      (spillCorrect t (processedMask frame lo hi r) (toFloatImg frame)).px i j 1 =
        ((toFloatImg frame).px i j 0 + (toFloatImg frame).px i j 2) / 2 * (1 - t) +
          (toFloatImg frame).px i j 1 * t := by
    intro t
    simp only [spillCorrect]
    rw [if_pos ⟨finval1, hg, hm⟩]
  have hmem := processedMask_mem frame lo hi r i j
  have h1 := compositePx_px frame bg lo hi r s1 hI hJ 1
  have h2 := compositePx_px frame bg lo hi r s2 hI hJ 1
  have hb2 : (compositePx frame bg lo hi r s2).px i j 1 ≤ 255 :=
    (compositePx_mem frame bg lo hi r s2 hf hb (le_trans h0 h12) h21 hI hJ 1).2
  apply toU8_mono ?_ hb2
  rw [h1, h2, hsv s1, hsv s2]
  nlinarith [hmem.2, sub_nonneg.mpr h12, sub_nonneg.mpr hg.le,
    mul_nonneg (mul_nonneg (sub_nonneg.mpr h12) (sub_nonneg.mpr hg.le))
      (sub_nonneg.mpr hmem.2)]

/-- Witness for the amended C2 theorem at a concrete input. -/
theorem spill_monotone_nondecreasing_witness :
    ∃ o1 o2, advanced_chroma_key frameG1 bgW1 GREEN_LOWER GREEN_UPPER 1 0 = some o1 ∧
      advanced_chroma_key frameG1 bgW1 GREEN_LOWER GREEN_UPPER 1 1 = some o2 ∧
      o1.px 0 0 1 ≤ o2.px 0 0 1 :=
  spill_monotone_nondecreasing frameG1 bgW1 GREEN_LOWER GREEN_UPPER 1 0 1 0 0
    frameG1_le bgW1_le rfl rfl (by norm_num) (by norm_num)
    (by norm_num) (by norm_num) (by norm_num)
    (by norm_num [toFloatImg, frameG1_px, pxGreen, finval0, finval1, finval2])
    (by rw [eval_pmG1]; norm_num)

/-- Claim C3, counterexample: a 1×1 frame with a 1×2 background have
different dimensions, yet the compositing function returns a frame (NumPy
broadcasting silently accepts the mismatch) instead of signalling any
`InvalidInput` failure — the source contains no dimension check at all. -/
theorem invalid_input_cex :
    ¬(bgBlack12.h = frameG1.h ∧ bgBlack12.w = frameG1.w) ∧
      (advanced_chroma_key frameG1 bgBlack12 GREEN_LOWER GREEN_UPPER 1 (7/10)).isSome =
        true := by
  constructor
  · intro h
    have := h.2
    simp [bgBlack12_w, frameG1_w] at this
  · rw [ack_isSome_eq]
    norm_num [bcDim]

/-- Claim C3, amended: the core performs no dimension check and has no
distinguished `InvalidInput` error.  The call succeeds exactly when the
background's dimensions are NumPy-broadcast-compatible with the frame's
(each axis equal, or either extent 1); a non-broadcastable mismatch makes
the elementwise blend of line 54 fail with a generic broadcasting error
(modelled as `none`), and a broadcastable mismatch silently returns a
composited frame. -/
theorem ack_isSome_iff (frame bg : Img8) (lo hi : Px8) (r : ℕ) (s : ℚ) :
    (advanced_chroma_key frame bg lo hi r s).isSome = true ↔
      ((bg.h = frame.h ∨ bg.h = 1 ∨ frame.h = 1) ∧
        (bg.w = frame.w ∨ bg.w = 1 ∨ frame.w = 1)) := by
  rw [ack_isSome_eq, Bool.and_eq_true, bcDim_isSome_iff, bcDim_isSome_iff]

/-- Claim C4: when the background has the frame's dimensions, every output
channel equals `decontaminatedFramePixel * (1 - mask) + backgroundPixel *
mask`, computed per channel in real arithmetic on the processed mask, then
truncated to the 8-bit range (source lines 53-55). -/
theorem alpha_blend_formula (frame bg : Img8) (lo hi : Px8) (r : ℕ) (s : ℚ) (i j : ℕ)
    (hh : bg.h = frame.h) (hw : bg.w = frame.w) (hI : i < frame.h) (hJ : j < frame.w) :
    ∃ out, advanced_chroma_key frame bg lo hi r s = some out ∧ ∀ c : Fin 3,
      out.px i j c = toU8
        ((spillCorrect s (processedMask frame lo hi r) (toFloatImg frame)).px i j c *
            (1 - (processedMask frame lo hi r).px i j) +
          (bg.px i j c : ℚ) * (processedMask frame lo hi r).px i j) :=
  ⟨_, ack_eq frame bg lo hi r s hh hw,
    fun c => congrArg toU8 (compositePx_px frame bg lo hi r s hI hJ c)⟩

/-- Witness for the C4 theorem at a concrete input. -/
theorem alpha_blend_formula_witness :
    ∃ out, advanced_chroma_key frameG1 bgW1 GREEN_LOWER GREEN_UPPER 1 (7/10) = some out ∧
      ∀ c : Fin 3,
        out.px 0 0 c = toU8
          ((spillCorrect (7/10) (processedMask frameG1 GREEN_LOWER GREEN_UPPER 1)
              (toFloatImg frameG1)).px 0 0 c *
              (1 - (processedMask frameG1 GREEN_LOWER GREEN_UPPER 1).px 0 0) +
            (bgW1.px 0 0 c : ℚ) * (processedMask frameG1 GREEN_LOWER GREEN_UPPER 1).px 0 0) :=
  alpha_blend_formula frameG1 bgW1 GREEN_LOWER GREEN_UPPER 1 (7/10) 0 0 rfl rfl
    (by norm_num) (by norm_num)

/-- Claim C5: the compositing transform is deterministic — it is a pure
function of its arguments, so equal inputs give bit-identical outputs. -/
theorem composite_deterministic (f1 f2 b1 b2 : Img8) (l1 l2 u1 u2 : Px8)
    (r1 r2 : ℕ) (s1 s2 : ℚ)
    (hf : f1 = f2) (hb : b1 = b2) (hl : l1 = l2) (hu : u1 = u2)
    (hr : r1 = r2) (hs : s1 = s2) :
    advanced_chroma_key f1 b1 l1 u1 r1 s1 = advanced_chroma_key f2 b2 l2 u2 r2 s2 := by
  subst hf hb hl hu hr hs
  rfl

/-- Witness for the C5 theorem at a concrete input. -/
theorem composite_deterministic_witness :
    advanced_chroma_key frameG1 bgW1 GREEN_LOWER GREEN_UPPER 1 (7/10) =
      advanced_chroma_key frameG1 bgW1 GREEN_LOWER GREEN_UPPER 1 (7/10) :=
  composite_deterministic frameG1 frameG1 bgW1 bgW1 GREEN_LOWER GREEN_LOWER
    GREEN_UPPER GREEN_UPPER 1 1 (7/10) (7/10) rfl rfl rfl rfl rfl rfl

/-- Claim C6: at a pixel whose fully processed mask value is 0 the spill
condition `mask > 0.05` fails, so the spill step is a no-op there whatever
the green excess, and the output pixel is byte-identical to the input
frame pixel after the 8-bit truncation. -/
theorem mask_zero_identity (frame bg : Img8) (lo hi : Px8) (r : ℕ) (s : ℚ) (i j : ℕ)
    (hh : bg.h = frame.h) (hw : bg.w = frame.w) (hI : i < frame.h) (hJ : j < frame.w)
    (hbyte : ∀ c, frame.px i j c ≤ 255)
    (hm : (processedMask frame lo hi r).px i j = 0) :
    ∃ out, advanced_chroma_key frame bg lo hi r s = some out ∧
      ∀ c : Fin 3, out.px i j c = frame.px i j c := by
  refine ⟨_, ack_eq frame bg lo hi r s hh hw, fun c => ?_⟩
  show toU8 ((compositePx frame bg lo hi r s).px i j c) = frame.px i j c
  rw [compositePx_px frame bg lo hi r s hI hJ c, hm]
  have hspill : (spillCorrect s (processedMask frame lo hi r) (toFloatImg frame)).px i j c =
      (frame.px i j c : ℚ) := by
    simp only [spillCorrect, toFloatImg]
    rw [if_neg]
    rintro ⟨-, -, h3⟩
    rw [hm] at h3
    norm_num at h3
  rw [hspill]
  have harith : (frame.px i j c : ℚ) * (1 - 0) + (bg.px i j c : ℚ) * 0 =
      (frame.px i j c : ℚ) := by ring
  rw [harith]
  exact toU8_natCast (hbyte c)

/-- Witness for the C6 theorem at a concrete input. -/
theorem mask_zero_identity_witness :
    ∃ out, advanced_chroma_key frameR1 bgW1 GREEN_LOWER GREEN_UPPER 1 (7/10) = some out ∧
      ∀ c : Fin 3, out.px 0 0 c = frameR1.px 0 0 c :=
  mask_zero_identity frameR1 bgW1 GREEN_LOWER GREEN_UPPER 1 (7/10) 0 0 rfl rfl
    (by norm_num) (by norm_num) (fun c => frameR1_le 0 0 c) eval_pmR1

/-- Claim C7: the thresholded mask is exactly 255 where every HSV component
lies inclusively within the bounds and 0 elsewhere, and after the division
by 255 the normalized initial mask is exactly the 0/1 indicator of that
membership, lying in `[0,1]` before feathering (source line 39). -/
theorem threshold_mask_binary (frame : Img8) (lo hi : Px8) (i j : ℕ) :
    (inRange (cvtColorBGR2HSV frame) lo hi).px i j =
        (if inRangeCond lo hi ((cvtColorBGR2HSV frame).px i j) then 255 else 0) ∧
      (binaryMask frame lo hi).px i j =
        (if inRangeCond lo hi ((cvtColorBGR2HSV frame).px i j) then 1 else 0) ∧
      ((binaryMask frame lo hi).px i j = 0 ∨ (binaryMask frame lo hi).px i j = 1) ∧
      0 ≤ (binaryMask frame lo hi).px i j ∧ (binaryMask frame lo hi).px i j ≤ 1 := by
  have h2 : (binaryMask frame lo hi).px i j =
      (if inRangeCond lo hi ((cvtColorBGR2HSV frame).px i j) then 1 else 0) := by
    simp only [binaryMask, inRange]
    split <;> norm_num
  refine ⟨rfl, h2, ?_, ?_, ?_⟩ <;> rw [h2] <;> split <;> norm_num

/-- Claim C8: the morphological cleanup is exactly one erosion pass followed
by exactly two dilation passes with the same full 3×3 structuring element,
applied after feathering and clipping (source lines 43-45); the dilation
count exceeds the erosion count by exactly one. -/
theorem morphology_order (frame : Img8) (lo hi : Px8) (r : ℕ) :
    processedMask frame lo hi r =
        cv2dilate (cv2erode (clip01 (gaussianBlur r (binaryMask frame lo hi))) 1) 2 ∧
      cv2erode (clip01 (gaussianBlur r (binaryMask frame lo hi))) 1 =
        erodeStep (clip01 (gaussianBlur r (binaryMask frame lo hi))) ∧
      cv2dilate (cv2erode (clip01 (gaussianBlur r (binaryMask frame lo hi))) 1) 2 =
        dilateStep (dilateStep (erodeStep (clip01 (gaussianBlur r (binaryMask frame lo hi))))) :=
  ⟨rfl, rfl, rfl⟩

/-- Claim C9: for a background of identical dimensions the transform
returns a new frame of the frame's dimensions; the embedding is a pure
function (the source copies the frame on line 47 before its only in-place
write), so inputs are never mutated. -/
theorem output_dims_pure (frame bg : Img8) (lo hi : Px8) (r : ℕ) (s : ℚ)
    (hh : bg.h = frame.h) (hw : bg.w = frame.w) :
    ∃ out, advanced_chroma_key frame bg lo hi r s = some out ∧
      out.h = frame.h ∧ out.w = frame.w :=
  ⟨_, ack_eq frame bg lo hi r s hh hw, rfl, rfl⟩

/-- Witness for the C9 theorem at a concrete input. -/
theorem output_dims_pure_witness :
    ∃ out, advanced_chroma_key frameG1 bgW1 GREEN_LOWER GREEN_UPPER 1 (7/10) = some out ∧
      out.h = frameG1.h ∧ out.w = frameG1.w :=
  output_dims_pure frameG1 bgW1 GREEN_LOWER GREEN_UPPER 1 (7/10) rfl rfl

/-- Claim C10: after normalization the mask stays in `[0,1]` through the
clip, the erosion and the dilations; for byte-valued inputs and
`spillSuppression ∈ [0,1]` every channel of the floating-point composite
lies in `[0,255]`, so the final 8-bit cast reduces to the plain floor and
never wraps. -/
theorem range_and_cast_invariant (frame bg : Img8) (lo hi : Px8) (r : ℕ) (s : ℚ) (i j : ℕ)
    (hf : ∀ a b c, frame.px a b c ≤ 255) (hb : ∀ a b c, bg.px a b c ≤ 255)
    (hs0 : 0 ≤ s) (hs1 : s ≤ 1)
    (hh : bg.h = frame.h) (hw : bg.w = frame.w)
    (hI : i < frame.h) (hJ : j < frame.w) :
    (∀ a b, 0 ≤ (clip01 (gaussianBlur r (binaryMask frame lo hi))).px a b ∧
        (clip01 (gaussianBlur r (binaryMask frame lo hi))).px a b ≤ 1) ∧
      (∀ a b, 0 ≤ (erodeStep (clip01 (gaussianBlur r (binaryMask frame lo hi)))).px a b ∧
        (erodeStep (clip01 (gaussianBlur r (binaryMask frame lo hi)))).px a b ≤ 1) ∧
      (∀ a b, 0 ≤ (processedMask frame lo hi r).px a b ∧
        (processedMask frame lo hi r).px a b ≤ 1) ∧
      (∀ c : Fin 3, 0 ≤ (compositePx frame bg lo hi r s).px i j c ∧
        (compositePx frame bg lo hi r s).px i j c ≤ 255) ∧
      ∃ out, advanced_chroma_key frame bg lo hi r s = some out ∧
        ∀ c : Fin 3, out.px i j c = (⌊(compositePx frame bg lo hi r s).px i j c⌋).toNat := by
  refine ⟨clip01_mem _, erodeStep_mem (clip01_mem _), processedMask_mem frame lo hi r,
    fun c => compositePx_mem frame bg lo hi r s hf hb hs0 hs1 hI hJ c,
    _, ack_eq frame bg lo hi r s hh hw, fun c => ?_⟩
  show toU8 ((compositePx frame bg lo hi r s).px i j c) = _
  exact toU8_eq_floor_toNat (compositePx_mem frame bg lo hi r s hf hb hs0 hs1 hI hJ c).2

/-- Witness for the C10 theorem at a concrete input. -/
theorem range_and_cast_invariant_witness :
    (∀ a b, 0 ≤ (clip01 (gaussianBlur 1 (binaryMask frameG1 GREEN_LOWER GREEN_UPPER))).px a b ∧
        (clip01 (gaussianBlur 1 (binaryMask frameG1 GREEN_LOWER GREEN_UPPER))).px a b ≤ 1) ∧
      (∀ a b, 0 ≤ (erodeStep (clip01 (gaussianBlur 1
          (binaryMask frameG1 GREEN_LOWER GREEN_UPPER)))).px a b ∧
        (erodeStep (clip01 (gaussianBlur 1
          (binaryMask frameG1 GREEN_LOWER GREEN_UPPER)))).px a b ≤ 1) ∧
      (∀ a b, 0 ≤ (processedMask frameG1 GREEN_LOWER GREEN_UPPER 1).px a b ∧
        (processedMask frameG1 GREEN_LOWER GREEN_UPPER 1).px a b ≤ 1) ∧
      (∀ c : Fin 3, 0 ≤ (compositePx frameG1 bgW1 GREEN_LOWER GREEN_UPPER 1 (7/10)).px 0 0 c ∧
        (compositePx frameG1 bgW1 GREEN_LOWER GREEN_UPPER 1 (7/10)).px 0 0 c ≤ 255) ∧
      ∃ out, advanced_chroma_key frameG1 bgW1 GREEN_LOWER GREEN_UPPER 1 (7/10) = some out ∧
        ∀ c : Fin 3, out.px 0 0 c =
          (⌊(compositePx frameG1 bgW1 GREEN_LOWER GREEN_UPPER 1 (7/10)).px 0 0 c⌋).toNat :=
  range_and_cast_invariant frameG1 bgW1 GREEN_LOWER GREEN_UPPER 1 (7/10) 0 0
    frameG1_le bgW1_le (by norm_num) (by norm_num) rfl rfl (by norm_num) (by norm_num)
